import Mathlib

/-!
Verification of the earnings-calendar pipeline (`earnings_calendar.py`,
`data_fetcher.py`).  The Python functions are shallowly embedded as Lean
functions: strings are `String` (ASCII, operated on through their `List Char`
data), Python dicts are association lists with explicit insertion,
the filesystem is a list of existing paths, and fallible operations return
`Except`/`Option`.
-/

/-! ## Character and string helpers (models of Python primitives) -/

/-- Value of an ASCII digit character. -/
def digitVal (c : Char) : Nat := c.toNat - 48

/-- Decimal digit test, as in the regex class `\d` applied to ASCII input. -/
def isDigitChar (c : Char) : Bool := 48 ≤ c.toNat && c.toNat ≤ 57

/-- Whitespace as matched by Python's regex `\s` on byte strings. -/
def isPySpace (c : Char) : Bool :=
  c = ' ' || c = '\t' || c = '\n' || c = '\x0b' || c = '\x0c' || c = '\r'

/-- ASCII letter test. -/
def isAsciiLetter (c : Char) : Bool :=
  (65 ≤ c.toNat && c.toNat ≤ 90) || (97 ≤ c.toNat && c.toNat ≤ 122)

/-- Python `s[:-3]`: drop the final three characters (empty result when
`len(s) <= 3`). -/
def pyDropLast3 (l : List Char) : List Char := l.take (l.length - 3)

/-! ## Model of `datetime.strptime(s, '%I:%M %p')`

Python's `_strptime` compiles the format to the anchored regex
`(1[0-2]|0[1-9]|[1-9]):([0-5]\d|\d)\s+(AM|PM)` (the `%p` alternatives come
from the C locale and the regex is case-insensitive), and raises
`ValueError` unless the whole input is consumed.  For this particular
pattern a first-alternative (PEG-style) parse coincides with the regex's
backtracking search: whenever a longer alternative for `%I` or `%M`
succeeds locally but the parse later fails, the shorter alternative fails
at the very next literal as well, since it leaves a digit where `:` or
whitespace is required. -/

/-- Parse `%I`: regex `1[0-2]|0[1-9]|[1-9]`, alternatives tried in order. -/
def parseHour12 : List Char → Option (Nat × List Char)
  | [] => none
  | c :: rest =>
    if c = '1' then
      match rest with
      | c2 :: rest2 =>
        if 48 ≤ c2.toNat && c2.toNat ≤ 50 then some (10 + digitVal c2, rest2)
        else some (1, rest)
      | [] => some (1, [])
    else if c = '0' then
      match rest with
      | c2 :: rest2 =>
        if 49 ≤ c2.toNat && c2.toNat ≤ 57 then some (digitVal c2, rest2) else none
      | [] => none
    else if 49 ≤ c.toNat && c.toNat ≤ 57 then some (digitVal c, rest)
    else none

/-- Parse `%M`: regex `[0-5]\d|\d`, alternatives tried in order. -/
def parseMin : List Char → Option (Nat × List Char)
  | [] => none
  | c :: rest =>
    if 48 ≤ c.toNat && c.toNat ≤ 53 then
      match rest with
      | c2 :: rest2 =>
        if isDigitChar c2 then some (10 * digitVal c + digitVal c2, rest2)
        else some (digitVal c, rest)
      | [] => some (digitVal c, [])
    else if isDigitChar c then some (digitVal c, rest)
    else none

/-- Parse the `\s+` that the literal space in the format turns into. -/
def parseSpaces1 : List Char → Option (List Char)
  | [] => none
  | c :: rest => if isPySpace c then some (rest.dropWhile isPySpace) else none

/-- Parse `%p`: `AM`/`PM`, case-insensitively; `true` means PM. -/
def parseAmPm : List Char → Option (Bool × List Char)
  | c1 :: c2 :: rest =>
    if (c1 = 'A' || c1 = 'a') && (c2 = 'M' || c2 = 'm') then some (false, rest)
    else if (c1 = 'P' || c1 = 'p') && (c2 = 'M' || c2 = 'm') then some (true, rest)
    else none
  | _ => none

/-- Model of `datetime.strptime(s, '%I:%M %p')`, returning the 24-hour-clock
hour and the minute of the parsed time, or `none` where Python raises
`ValueError` (which includes any unconsumed trailing characters). -/
def strptimeIMp (s : List Char) : Option (Nat × Nat) :=
  match parseHour12 s with
  | none => none
  | some (h12, r1) =>
    match r1 with
    | ':' :: r2 =>
      match parseMin r2 with
      | none => none
      | some (m, r3) =>
        match parseSpaces1 r3 with
        | none => none
        | some r4 =>
          match parseAmPm r4 with
          | some (pm, []) =>
            some ((if pm then (if h12 = 12 then 12 else h12 + 12)
                   else (if h12 = 12 then 0 else h12)), m)
          | _ => none
    | _ => none

/-! ## earnings_calendar._is_BTO_or_ATC -/

/-- Model of `_is_BTO_or_ATC` (earnings_calendar.py, lines 43-76): try
`strptime(time_string[:-3], '%I:%M %p')`; on success classify by the
24-hour-clock hour, on `ValueError` compare against the literal session
codes, and otherwise return the `"n/a"` sentinel. -/
def is_BTO_or_ATC (time_string : String) : String :=
  match strptimeIMp (pyDropLast3 time_string.data) with
  | some (hour, _) =>
    if hour < 10 then "BTO"
    else if 16 ≤ hour then "ATC"
    else if 10 ≤ hour ∧ hour < 16 then "DMH"
    else "n/a"
  | none =>
    if time_string = "BMO" then "BTO"
    else if time_string = "AMC" then "ATC"
    else if time_string = "DMH" then "DMH"
    else "n/a"

/-- Strip a trailing timezone suffix consisting of a space followed by two or
three ASCII letters, per the spec's description of the classifier's
time-of-day branch.  Returns `none` when no such suffix is present. -/
def stripTZSuffix (s : List Char) : Option (List Char) :=
  match s.reverse with
  | a :: b :: c :: rest =>
    if isAsciiLetter a && isAsciiLetter b && c = ' ' then some rest.reverse
    else if isAsciiLetter a && isAsciiLetter b && isAsciiLetter c then
      match rest with
      | ' ' :: rest2 => some rest2.reverse
      | _ => none
    else none
  | _ => none

/-- Reference classifier following the spec's words for claim C1 (spec §4.3):
if the raw time parses as hour:minute plus AM/PM after stripping a trailing
2-3 character timezone suffix, classify by the 24-hour-clock hour
(`< 10`, `≥ 16`, otherwise); only on parse failure map the literal session
codes, and send everything else to the not-applicable sentinel. -/
def classifySpecRef (raw_time : String) : String :=
  match (stripTZSuffix raw_time.data).bind strptimeIMp with
  | some (hour, _) =>
    if hour < 10 then "BTO"
    else if 16 ≤ hour then "ATC"
    else "DMH"
  | none =>
    if raw_time = "BMO" then "BTO"
    else if raw_time = "AMC" then "ATC"
    else if raw_time = "DMH" then "DMH"
    else "n/a"

example : is_BTO_or_ATC "7:30 AM ET" = "BTO" := by decide
example : is_BTO_or_ATC "12:15 PM ET" = "DMH" := by decide
example : is_BTO_or_ATC "4:05 PM ET" = "ATC" := by decide
example : is_BTO_or_ATC "BMO" = "BTO" := by decide
example : is_BTO_or_ATC "AMC" = "ATC" := by decide
example : is_BTO_or_ATC "DMH" = "DMH" := by decide
example : is_BTO_or_ATC "n/a" = "n/a" := by decide
example : is_BTO_or_ATC "TBD" = "n/a" := by decide
example : is_BTO_or_ATC "" = "n/a" := by decide
example : is_BTO_or_ATC "7:30 AM EST" = "n/a" := by decide
example : classifySpecRef "7:30 AM EST" = "BTO" := by decide

/-- C1 counterexample: on `"7:30 AM EST"` (a clock time carrying a
three-letter timezone suffix) the spec's two-tier reference definition
classifies before-open, but `_is_BTO_or_ATC` slices off exactly three
characters, hands `"7:30 AM "` to `strptime` (which rejects the trailing
space), misses every session-code literal, and yields the not-applicable
sentinel. -/
theorem c1_classify_counterexample :
    classifySpecRef "7:30 AM EST" = "BTO" ∧
    is_BTO_or_ATC "7:30 AM EST" = "n/a" ∧
    ("BTO" : String) ≠ "n/a" := by decide

/-- C1 amended: with the stripping rule stated as it is implemented — exactly
the final three characters are removed, so only times whose trailing
timezone portion is three characters long (a space plus a two-letter zone)
reach the clock-time branch — the two-tier definition holds: a successful
parse classifies purely by the 24-hour-clock hour (`< 10` before-open,
`≥ 16` after-close, otherwise during-hours, never the sentinel), and only a
failed parse falls through to the literal session codes, everything else
giving `"n/a"`. -/
theorem c1_classify_amended (s : String) :
    (∀ h m, strptimeIMp (pyDropLast3 s.data) = some (h, m) →
      is_BTO_or_ATC s = (if h < 10 then "BTO" else if 16 ≤ h then "ATC" else "DMH") ∧
      is_BTO_or_ATC s ≠ "n/a") ∧
    (strptimeIMp (pyDropLast3 s.data) = none →
      is_BTO_or_ATC s =
        (if s = "BMO" then "BTO" else if s = "AMC" then "ATC"
         else if s = "DMH" then "DMH" else "n/a")) := by
  constructor
  · intro h m hp
    have e : is_BTO_or_ATC s =
        (if h < 10 then "BTO" else if 16 ≤ h then "ATC"
         else if 10 ≤ h ∧ h < 16 then "DMH" else "n/a") := by
      unfold is_BTO_or_ATC
      rw [hp]
    rw [e]
    constructor
    · split_ifs with h1 h2 h3 <;> first | rfl | omega
    · split_ifs with h1 h2 h3 <;> first | decide | omega
  · intro hp
    unfold is_BTO_or_ATC
    rw [hp]

/-- Witness for `c1_classify_amended` at the concrete time `"7:30 AM ET"`. -/
theorem c1_classify_amended_witness :
    is_BTO_or_ATC "7:30 AM ET" = "BTO" ∧ is_BTO_or_ATC "7:30 AM ET" ≠ "n/a" :=
  (c1_classify_amended "7:30 AM ET").1 7 30 (by decide)

/-! ## earnings_calendar._find_symbols_and_times -/

/-- One extracted record: (ticker text, session classification, time text). -/
abbrev Row3 := String × String × String

/-- Model of `_find_symbols_and_times` (earnings_calendar.py, lines 78-107):
the page's calendar container is abstracted to its two element-text
sequences, in document order.  When the two sequences disagree in length
both the session and the time degrade to `"n/a"` for every ticker;
otherwise times are classified and everything is paired positionally by
`zip` (which truncates to the shorter list, exactly as Python's). -/
def find_symbols_and_times (tickers times : List String) : List Row3 :=
  if tickers.length ≠ times.length then
    tickers.zip ((List.replicate tickers.length "n/a").zip
      (List.replicate tickers.length "n/a"))
  else
    tickers.zip ((times.map is_BTO_or_ATC).zip times)

theorem zip_replicate_pair (l : List String) (a b : String) :
    l.zip ((List.replicate l.length a).zip (List.replicate l.length b)) =
      l.map (fun t => (t, a, b)) := by
  induction l with
  | nil => rfl
  | cons x xs ih =>
    simp only [List.length_cons, List.replicate_succ, List.zip_cons_cons, List.map_cons]
    rw [ih]

theorem zip_map_zip (tickers times : List String) :
    tickers.zip ((times.map is_BTO_or_ATC).zip times) =
      tickers.zipWith (fun t x => (t, is_BTO_or_ATC x, x)) times := by
  induction tickers generalizing times with
  | nil => rfl
  | cons t ts ih =>
    cases times with
    | nil => rfl
    | cons x xs => simpa using ih xs

theorem find_symbols_and_times_fst (tickers times : List String) :
    (find_symbols_and_times tickers times).map (fun r => r.1) = tickers := by
  unfold find_symbols_and_times
  split
  · rw [zip_replicate_pair]
    simp [Function.comp_def]
  · apply List.map_fst_zip
    simp_all

/-- C2: the extractor emits one record per ticker element, in document order
(the first components are exactly the ticker sequence); on a length
mismatch every record degrades to the `"n/a"` time (and session) with no
partial alignment, and on equal lengths records are paired element-wise by
position. -/
theorem c2_extract_alignment (tickers times : List String) :
    ((find_symbols_and_times tickers times).map (fun r => r.1) = tickers) ∧
    (tickers.length ≠ times.length →
      find_symbols_and_times tickers times =
        tickers.map (fun t => (t, "n/a", "n/a"))) ∧
    (tickers.length = times.length →
      find_symbols_and_times tickers times =
        tickers.zipWith (fun t x => (t, is_BTO_or_ATC x, x)) times) := by
  refine ⟨find_symbols_and_times_fst tickers times, ?_, ?_⟩
  · intro hne
    unfold find_symbols_and_times
    rw [if_pos hne]
    exact zip_replicate_pair tickers "n/a" "n/a"
  · intro heq
    unfold find_symbols_and_times
    rw [if_neg (by omega)]
    exact zip_map_zip tickers times

/-- Witness for `c2_extract_alignment`: three tickers against two times yield
three records, all with time (and session) `"n/a"`. -/
theorem c2_extract_alignment_witness :
    find_symbols_and_times ["AAPL", "MSFT", "GOOG"] ["7:30 AM ET", "4:05 PM ET"] =
      [("AAPL", "n/a", "n/a"), ("MSFT", "n/a", "n/a"), ("GOOG", "n/a", "n/a")] := by
  have := (c2_extract_alignment ["AAPL", "MSFT", "GOOG"] ["7:30 AM ET", "4:05 PM ET"]).2.1
    (by decide)
  simpa using this

/-! ## Case normalization (claim C9) -/

/-- Model of Python 2 `str.upper` on ASCII text. -/
def pyUpperChar (c : Char) : Char :=
  if 97 ≤ c.toNat && c.toNat ≤ 122 then Char.ofNat (c.toNat - 32) else c

/-- Model of Python 2 `str.upper` on ASCII text, lifted to strings. -/
def pyUpper (s : String) : String := ⟨s.data.map pyUpperChar⟩

/-- Model of `CompanyClient.__init__` (data_fetcher.py, lines 13-18): the
enrichment client's symbol list is `map(str.upper, symbol_list)`. -/
def companyClientSymbolList (symbol_list : List String) : List String :=
  symbol_list.map pyUpper

/-- C9 counterexample: a page whose ticker element holds lowercase text
produces an announcement (and hence a Symbol column value) that is not
uppercase — `_find_symbols_and_times` stores the ticker text verbatim. -/
theorem c9_uppercase_counterexample :
    find_symbols_and_times ["aapl"] ["7:30 AM ET"] = [("aapl", "BTO", "7:30 AM ET")] ∧
    pyUpper "aapl" = "AAPL" ∧
    ("aapl" : String) ≠ "AAPL" := by decide

/-- C9 amended: announcement symbols (and hence the Symbol column) carry the
scraped ticker text verbatim, with no case normalization; the only
uppercasing in the system is the enrichment client's internal symbol list,
built in `CompanyClient.__init__`. -/
theorem c9_uppercase_amended (tickers times symbol_list : List String) :
    ((find_symbols_and_times tickers times).map (fun r => r.1) = tickers) ∧
    companyClientSymbolList symbol_list = symbol_list.map pyUpper :=
  ⟨find_symbols_and_times_fst tickers times, rfl⟩

/-! ## Business-day stepping (pandas `BDay`) and the aggregator

Dates are modelled as day numbers: `0` is 1970-01-01 (a Thursday), so the
weekday index (0 = Monday .. 6 = Sunday) of day `d` is `(d + 3) % 7`.
`datetime.today()` carries a time of day that every key of one aggregation
run shares and `BDay` preserves, so keys compare exactly as their day
numbers do; the model therefore keys by day number. -/

/-- Weekday index of a day number, 0 = Monday .. 6 = Sunday. -/
def weekdayIdx (d : Nat) : Nat := (d + 3) % 7

/-- Monday-to-Friday test, `weekday() < 5` in pandas terms. -/
def isBusinessDay (d : Nat) : Bool := weekdayIdx d < 5

/-- First business day strictly after `d` (at most three days ahead, since at
most two consecutive days are non-business). -/
def nextBDay (d : Nat) : Nat :=
  if isBusinessDay (d + 1) then d + 1
  else if isBusinessDay (d + 2) then d + 2
  else d + 3

/-- Advance `n` business days, one at a time. -/
def addBDays : Nat → Nat → Nat
  | d, 0 => d
  | d, n + 1 => addBDays (nextBDay d) n

/-- Model of pandas `other + BDay(n)` for `n ≥ 0`: `BusinessDay.apply` walks
forward one calendar day at a time, decrementing `n` on each weekday, after
first bumping `n` from `0` to `1` when `other` falls on a weekend (the
roll-forward convention of a zero offset).  The walk is `addBDays`, which
takes the same business-day steps in one jump each. -/
def bdayApply (other : Nat) (n : Nat) : Nat :=
  if n = 0 ∧ ¬ isBusinessDay other then addBDays other 1 else addBDays other n

/-- Python dict assignment `d[k] = v` on an association list: overwrite the
existing entry in place, or append a fresh one. -/
def dictInsert {β : Type} (d : List (Nat × β)) (k : Nat) (v : β) : List (Nat × β) :=
  if d.any (fun kv => kv.1 == k) then
    d.map (fun kv => if kv.1 == k then (k, v) else kv)
  else d ++ [(k, v)]

/-- Model of `fetch_all_earnings_and_times` (earnings_calendar.py, lines
109-132): for each `day` in `range(start_day, n_days + start_day)` fetch
that day's page (abstracted to its ticker/time text sequences), extract the
records, and store them in the dict under `today + BDay(day)`. -/
def fetch_all_earnings_and_times (today : Nat)
    (pages : Nat → List String × List String) (n_days start_day : Nat) :
    List (Nat × List Row3) :=
  (List.range n_days).foldl
    (fun cal i =>
      dictInsert cal (bdayApply today (start_day + i))
        (find_symbols_and_times (pages (start_day + i)).1 (pages (start_day + i)).2))
    []

example : fetch_all_earnings_and_times 2 (fun _ => ([], [])) 2 0 = [(4, [])] := by decide
example : addBDays 0 1 = 1 := by decide
example : addBDays 2 1 = 4 := by decide

theorem nextBDay_business (d : Nat) : isBusinessDay (nextBDay d) = true := by
  unfold nextBDay isBusinessDay weekdayIdx
  split_ifs with h1 h2 <;> simp_all <;> omega

theorem nextBDay_gt (d : Nat) : d < nextBDay d := by
  unfold nextBDay
  split_ifs <;> omega

theorem addBDays_succ_right (d n : Nat) :
    addBDays d (n + 1) = nextBDay (addBDays d n) := by
  induction n generalizing d with
  | zero => rfl
  | succ k ih =>
    show addBDays (nextBDay d) (k + 1) = _
    rw [ih (nextBDay d)]
    rfl

theorem addBDays_business (d n : Nat) (hn : 1 ≤ n) :
    isBusinessDay (addBDays d n) = true := by
  cases n with
  | zero => omega
  | succ k => rw [addBDays_succ_right]; exact nextBDay_business _

theorem addBDays_lt_succ (d n : Nat) : addBDays d n < addBDays d (n + 1) := by
  rw [addBDays_succ_right]
  exact nextBDay_gt _

theorem addBDays_strictMono (d : Nat) : StrictMono (addBDays d) := by
  exact strictMono_nat_of_lt_succ (addBDays_lt_succ d)

theorem bdayApply_eq_addBDays (today n : Nat)
    (h : isBusinessDay today = true ∨ 1 ≤ n) :
    bdayApply today n = addBDays today n := by
  unfold bdayApply
  split_ifs with hc
  · rcases hc with ⟨hn, hb⟩
    rcases h with hbt | hs
    · exact absurd hbt hb
    · omega
  · rfl

theorem dictInsert_not_mem {β : Type} (d : List (Nat × β)) (k : Nat) (v : β)
    (hk : ∀ kv ∈ d, kv.1 ≠ k) : dictInsert d k v = d ++ [(k, v)] := by
  have hfalse : d.any (fun kv => kv.1 == k) = false := by
    rw [List.any_eq_false]
    intro kv hmem
    simpa using hk kv hmem
  unfold dictInsert
  rw [hfalse]
  simp

theorem fetch_all_entries (today start_day : Nat)
    (pages : Nat → List String × List String)
    (h : isBusinessDay today = true ∨ 1 ≤ start_day) (n_days : Nat) :
    fetch_all_earnings_and_times today pages n_days start_day =
      (List.range n_days).map (fun i =>
        (addBDays today (start_day + i),
         find_symbols_and_times (pages (start_day + i)).1 (pages (start_day + i)).2)) := by
  have hconv : ∀ i : Nat, bdayApply today (start_day + i) = addBDays today (start_day + i) := by
    intro i
    refine bdayApply_eq_addBDays today _ ?_
    rcases h with hb | hs
    · exact Or.inl hb
    · exact Or.inr (by omega)
  induction n_days with
  | zero => rfl
  | succ n ih =>
    unfold fetch_all_earnings_and_times at ih ⊢
    rw [List.range_succ, List.foldl_append, ih, List.foldl_cons, List.foldl_nil,
      List.map_append, hconv n]
    rw [dictInsert_not_mem]
    · simp
    · intro kv hkv
      simp only [List.mem_map, List.mem_range] at hkv
      obtain ⟨i, hi, rfl⟩ := hkv
      have := (addBDays_strictMono today) (show start_day + i < start_day + n by omega)
      omega

/-- C3 counterexample: aggregating from a weekend "today" (day 2 is Saturday,
1970-01-03) with `start_day = 0` makes offsets 0 and 1 both land on the next
Monday (`BDay(0)` rolls a weekend forward and `BDay(1)` from a weekend also
stops at Monday), so requesting `n_days = 2` produces a dataset with a
single date key instead of two. -/
theorem c3_aggregate_counterexample :
    fetch_all_earnings_and_times 2 (fun _ => ([], [])) 2 0 = [(4, [])] ∧
    ([(4, [])] : List (Nat × List Row3)).length = 1 ∧
    isBusinessDay 2 = false ∧
    bdayApply 2 0 = bdayApply 2 1 := by decide

/-- C3 amended: provided the run starts on a business day or `start_day ≥ 1`
(which the CLI default `start_day = 1` always satisfies), the dataset has
exactly `n_days` keys — offset `i` mapping to today advanced by
`start_day + i` business days — which are strictly increasing, all business
days, and contiguous under single business-day stepping. -/
theorem c3_aggregate_amended (today n_days start_day : Nat)
    (pages : Nat → List String × List String)
    (h : isBusinessDay today = true ∨ 1 ≤ start_day) :
    ((fetch_all_earnings_and_times today pages n_days start_day).map (fun kv => kv.1) =
      (List.range n_days).map (fun i => addBDays today (start_day + i))) ∧
    ((fetch_all_earnings_and_times today pages n_days start_day).length = n_days) ∧
    List.Pairwise (· < ·)
      ((fetch_all_earnings_and_times today pages n_days start_day).map (fun kv => kv.1)) ∧
    (∀ k ∈ (fetch_all_earnings_and_times today pages n_days start_day).map (fun kv => kv.1),
      isBusinessDay k = true) ∧
    List.Chain' (fun a b => b = addBDays a 1)
      ((fetch_all_earnings_and_times today pages n_days start_day).map (fun kv => kv.1)) := by
  have hmap := fetch_all_entries today start_day pages h n_days
  have hkeys : (fetch_all_earnings_and_times today pages n_days start_day).map (fun kv => kv.1)
      = (List.range n_days).map (fun i => addBDays today (start_day + i)) := by
    rw [hmap, List.map_map]
    rfl
  refine ⟨hkeys, ?_, ?_, ?_, ?_⟩
  · rw [hmap]
    simp
  · rw [hkeys]
    refine List.Pairwise.map _ ?_ (List.pairwise_lt_range n_days)
    intro a b hab
    exact (addBDays_strictMono today) (by omega)
  · intro k hk2
    rw [hkeys] at hk2
    simp only [List.mem_map, List.mem_range] at hk2
    obtain ⟨i, hi, rfl⟩ := hk2
    rcases Nat.eq_zero_or_pos (start_day + i) with hz | hp
    · rw [hz]
      rcases h with hb | hs
      · exact hb
      · omega
    · exact addBDays_business _ _ hp
  · rw [hkeys, List.chain'_map]
    cases n_days with
    | zero => simp
    | succ m =>
      rw [List.chain'_range_succ]
      intro i hi
      rw [show start_day + (i + 1) = (start_day + i) + 1 by omega, addBDays_succ_right]
      rfl

/-- Witness for `c3_aggregate_amended`: two days starting at offset 1 from
Thursday 1970-01-01 give the keys Friday (day 1) and Monday (day 4). -/
theorem c3_aggregate_amended_witness :
    ((fetch_all_earnings_and_times 0 (fun _ => ([], [])) 2 1).map (fun kv => kv.1) =
      (List.range 2).map (fun i => addBDays 0 (1 + i))) ∧
    ((fetch_all_earnings_and_times 0 (fun _ => ([], [])) 2 1).length = 2) ∧
    List.Pairwise (· < ·)
      ((fetch_all_earnings_and_times 0 (fun _ => ([], [])) 2 1).map (fun kv => kv.1)) ∧
    (∀ k ∈ (fetch_all_earnings_and_times 0 (fun _ => ([], [])) 2 1).map (fun kv => kv.1),
      isBusinessDay k = true) ∧
    List.Chain' (fun a b => b = addBDays a 1)
      ((fetch_all_earnings_and_times 0 (fun _ => ([], [])) 2 1).map (fun kv => kv.1)) :=
  c3_aggregate_amended 0 2 1 (fun _ => ([], [])) (Or.inl (by decide))

/-! ## Decimal rendering and date formatting

Models of Python's `'{}'.format(i)` for a nonnegative integer and of the
`strftime` directives used by the writer (`%Y%m%d` and `%a, %m/%d/%Y`).
The year/month/day of a day number are obtained by the standard
days-to-civil conversion for the proleptic Gregorian calendar. -/

/-- Fuel-bounded little-endian decimal digit extraction; with fuel at least
`n` it computes the digits of `n`.  Structural recursion on the fuel keeps
the function kernel-reducible. -/
def natDigitsRevGo : Nat → Nat → List Nat
  | 0, n => [n % 10]
  | fuel + 1, n => if n < 10 then [n] else (n % 10) :: natDigitsRevGo fuel (n / 10)

/-- Little-endian decimal digits of a natural number (always nonempty). -/
def natDigitsRev (n : Nat) : List Nat := natDigitsRevGo n n

/-- Value of a little-endian digit list. -/
def digitsVal : List Nat → Nat
  | [] => 0
  | d :: ds => d + 10 * digitsVal ds

/-- Decimal rendering of a natural number, as `'{}'.format(i)` produces. -/
def natToStr (n : Nat) : String :=
  ⟨(natDigitsRev n).reverse.map Nat.digitChar⟩

example : natToStr 0 = "0" := by decide
example : natToStr 1 = "1" := by decide
example : natToStr 19700103 = "19700103" := by decide

theorem natDigitsRevGo_small (fuel m : Nat) (h : m < 10) :
    natDigitsRevGo fuel m = [m] := by
  cases fuel with
  | zero => simp [natDigitsRevGo, Nat.mod_eq_of_lt h]
  | succ k => simp [natDigitsRevGo, h]

theorem natDigitsRevGo_irrel : ∀ n f1 f2 : Nat, n ≤ f1 → n ≤ f2 →
    natDigitsRevGo f1 n = natDigitsRevGo f2 n := by
  intro n
  induction n using Nat.strong_induction_on with
  | _ n ih =>
    intro f1 f2 h1 h2
    rcases Nat.lt_or_ge n 10 with hn | hn
    · rw [natDigitsRevGo_small f1 n hn, natDigitsRevGo_small f2 n hn]
    · obtain ⟨g1, rfl⟩ : ∃ g, f1 = g + 1 := ⟨f1 - 1, by omega⟩
      obtain ⟨g2, rfl⟩ : ∃ g, f2 = g + 1 := ⟨f2 - 1, by omega⟩
      have e1 : natDigitsRevGo (g1 + 1) n = (n % 10) :: natDigitsRevGo g1 (n / 10) := by
        show (if n < 10 then [n] else (n % 10) :: natDigitsRevGo g1 (n / 10)) = _
        rw [if_neg (by omega)]
      have e2 : natDigitsRevGo (g2 + 1) n = (n % 10) :: natDigitsRevGo g2 (n / 10) := by
        show (if n < 10 then [n] else (n % 10) :: natDigitsRevGo g2 (n / 10)) = _
        rw [if_neg (by omega)]
      rw [e1, e2,
        ih (n / 10) (Nat.div_lt_self (by omega) (by omega)) g1 g2 (by omega) (by omega)]

theorem natDigitsRev_eq (n : Nat) :
    natDigitsRev n = if n < 10 then [n] else (n % 10) :: natDigitsRev (n / 10) := by
  rcases Nat.lt_or_ge n 10 with hn | hn
  · rw [if_pos hn]
    exact natDigitsRevGo_small n n hn
  · rw [if_neg (by omega)]
    unfold natDigitsRev
    obtain ⟨g, rfl⟩ : ∃ g, n = g + 1 := ⟨n - 1, by omega⟩
    show (if g + 1 < 10 then [g + 1] else ((g + 1) % 10) :: natDigitsRevGo g ((g + 1) / 10)) = _
    rw [if_neg (by omega),
      natDigitsRevGo_irrel ((g + 1) / 10) g ((g + 1) / 10) (by omega) (by omega)]

theorem natDigitsRev_val (n : Nat) : digitsVal (natDigitsRev n) = n := by
  induction n using Nat.strong_induction_on with
  | _ n ih =>
    rw [natDigitsRev_eq]
    split
    · simp [digitsVal]
    · rw [digitsVal, ih (n / 10) (Nat.div_lt_self (by omega) (by omega))]
      omega

theorem natDigitsRev_lt_ten (n : Nat) : ∀ x ∈ natDigitsRev n, x < 10 := by
  induction n using Nat.strong_induction_on with
  | _ n ih =>
    rw [natDigitsRev_eq]
    split
    · intro x hx
      simp only [List.mem_singleton] at hx
      omega
    · intro x hx
      simp only [List.mem_cons] at hx
      rcases hx with rfl | hx
      · omega
      · exact ih (n / 10) (Nat.div_lt_self (by omega) (by omega)) x hx

theorem digitChar_inj_lt {a b : Nat} (ha : a < 10) (hb : b < 10)
    (h : Nat.digitChar a = Nat.digitChar b) : a = b := by
  interval_cases a <;> interval_cases b <;> first | rfl | (exfalso; revert h; decide)

theorem map_digitChar_inj : ∀ l1 l2 : List Nat, (∀ x ∈ l1, x < 10) → (∀ x ∈ l2, x < 10) →
    l1.map Nat.digitChar = l2.map Nat.digitChar → l1 = l2 := by
  intro l1
  induction l1 with
  | nil =>
    intro l2 _ _ h
    cases l2 with
    | nil => rfl
    | cons y ys => simp at h
  | cons x xs ih =>
    intro l2 h1 h2 h
    cases l2 with
    | nil => simp at h
    | cons y ys =>
      simp only [List.map_cons, List.cons.injEq] at h
      have hx : x = y :=
        digitChar_inj_lt (h1 x (by simp)) (h2 y (by simp)) h.1
      have : xs = ys := ih ys (fun z hz => h1 z (by simp [hz]))
        (fun z hz => h2 z (by simp [hz])) h.2
      rw [hx, this]

theorem natToStr_inj {a b : Nat} (h : natToStr a = natToStr b) : a = b := by
  have hdata : ((natDigitsRev a).reverse.map Nat.digitChar) =
      ((natDigitsRev b).reverse.map Nat.digitChar) := congrArg String.data h
  have hrev : (natDigitsRev a).reverse = (natDigitsRev b).reverse := by
    refine map_digitChar_inj _ _ ?_ ?_ hdata
    · intro x hx
      exact natDigitsRev_lt_ten a x (List.mem_reverse.mp hx)
    · intro x hx
      exact natDigitsRev_lt_ten b x (List.mem_reverse.mp hx)
  have : natDigitsRev a = natDigitsRev b := List.reverse_injective hrev
  rw [← natDigitsRev_val a, ← natDigitsRev_val b, this]

theorem natToStr_length_one {n : Nat} (h : n < 10) : (natToStr n).length = 1 := by
  unfold natToStr
  rw [natDigitsRev_eq, if_pos h]
  rfl

theorem natToStr_length_two {n : Nat} (h1 : 10 ≤ n) (h2 : n < 100) :
    (natToStr n).length = 2 := by
  unfold natToStr
  rw [natDigitsRev_eq, if_neg (by omega), natDigitsRev_eq, if_pos (by omega)]
  rfl

theorem natToStr_length_three {n : Nat} (h1 : 100 ≤ n) (h2 : n < 1000) :
    (natToStr n).length = 3 := by
  unfold natToStr
  rw [natDigitsRev_eq, if_neg (by omega), natDigitsRev_eq, if_neg (by omega),
    natDigitsRev_eq, if_pos (by omega)]
  rfl

theorem natToStr_length_four {n : Nat} (h1 : 1000 ≤ n) (h2 : n < 10000) :
    (natToStr n).length = 4 := by
  unfold natToStr
  rw [natDigitsRev_eq, if_neg (by omega), natDigitsRev_eq, if_neg (by omega),
    natDigitsRev_eq, if_neg (by omega), natDigitsRev_eq, if_pos (by omega)]
  rfl

/-- Zero-padded two-digit rendering, as `strftime` `%m`/`%d` produce. -/
def pad2 (n : Nat) : String := if n < 10 then "0" ++ natToStr n else natToStr n

/-- Zero-padded four-digit rendering, as `strftime` `%Y` produces for the
years `datetime` supports. -/
def pad4 (n : Nat) : String :=
  if n < 10 then "000" ++ natToStr n
  else if n < 100 then "00" ++ natToStr n
  else if n < 1000 then "0" ++ natToStr n
  else natToStr n

theorem pad2_length {n : Nat} (h : n < 100) : (pad2 n).length = 2 := by
  unfold pad2
  split_ifs with h1
  · rw [String.length_append, natToStr_length_one h1]
    decide
  · rw [natToStr_length_two (by omega) h]

theorem pad4_length {n : Nat} (h : n < 10000) : (pad4 n).length = 4 := by
  unfold pad4
  split_ifs with h1 h2 h3
  · rw [String.length_append, natToStr_length_one h1]
    decide
  · rw [String.length_append, natToStr_length_two (by omega) h2]
    decide
  · rw [String.length_append, natToStr_length_three (by omega) h3]
    decide
  · rw [natToStr_length_four (by omega) h]

/-- Civil (year, month, day) of a day number, day 0 = 1970-01-01, by the
standard days-to-civil conversion for the proleptic Gregorian calendar. -/
def civilOfDays (z : Nat) : Nat × Nat × Nat :=
  let zz := z + 719468
  let era := zz / 146097
  let doe := zz % 146097
  let yoe := (doe - doe / 1460 + doe / 36524 - doe / 146096) / 365
  let y := yoe + era * 400
  let doy := doe - (365 * yoe + yoe / 4 - yoe / 100)
  let mp := (5 * doy + 2) / 153
  let d := doy - (153 * mp + 2) / 5 + 1
  let m := if mp < 10 then mp + 3 else mp - 9
  (if m ≤ 2 then y + 1 else y, m, d)

example : civilOfDays 0 = (1970, 1, 1) := by decide
example : civilOfDays 2 = (1970, 1, 3) := by decide

/-- Abbreviated weekday name, as `strftime` `%a` produces in the C locale. -/
def weekdayAbbrev (d : Nat) : String :=
  [("Mon" : String), "Tue", "Wed", "Thu", "Fri", "Sat", "Sun"].getD (weekdayIdx d) ""

example : weekdayAbbrev 0 = "Thu" := by decide

/-- Model of `date.strftime('%Y%m%d')` on a day number. -/
def strftimeYmd (d : Nat) : String :=
  pad4 (civilOfDays d).1 ++ pad2 (civilOfDays d).2.1 ++ pad2 (civilOfDays d).2.2

/-- Model of `date.strftime('%a, %m/%d/%Y')` on a day number. -/
def strftimeAMdY (d : Nat) : String :=
  weekdayAbbrev d ++ ", " ++ pad2 (civilOfDays d).2.1 ++ "/" ++
    pad2 (civilOfDays d).2.2 ++ "/" ++ pad4 (civilOfDays d).1

example : strftimeYmd 0 = "19700101" := by decide
example : strftimeAMdY 0 = "Thu, 01/01/1970" := by decide
example : strftimeAMdY 4 = "Mon, 01/05/1970" := by decide

theorem civil_month_day_bounds (z y m d : Nat) (h : civilOfDays z = (y, m, d)) :
    1 ≤ m ∧ m ≤ 12 ∧ 1 ≤ d ∧ d ≤ 31 := by
  simp only [civilOfDays, Prod.mk.injEq] at h
  obtain ⟨hy, hm, hd⟩ := h
  clear hy
  split_ifs at hm with hmp <;> omega

/-! ## File naming and the writer -/

theorem stringData_append (a b : String) : (a ++ b).data = a.data ++ b.data := by
  cases a; cases b; rfl

theorem stringExt {a b : String} (h : a.data = b.data) : a = b := by
  cases a; cases b
  exact congrArg String.mk (by simpa using h)

theorem stringAppend_cancel_left {a x y : String} (h : a ++ x = a ++ y) : x = y := by
  apply stringExt
  have hd := congrArg String.data h
  rw [stringData_append, stringData_append] at hd
  exact List.append_cancel_left hd

/-- Model of `os.path.join(a, b)` for POSIX paths with two components: keep
`b` alone when it is absolute or `a` is empty, avoid doubling a trailing
separator, and otherwise insert one. -/
def pyJoin (a b : String) : String :=
  if a = "" then b
  else if a.data.getLast? = some '/' then a ++ b
  else if b.data.head? = some '/' then b
  else a ++ "/" ++ b

theorem pyJoin_right_inj (a : String) {x y : String}
    (hxy : (x.data.head? = some '/') ↔ (y.data.head? = some '/'))
    (h : pyJoin a x = pyJoin a y) : x = y := by
  unfold pyJoin at h
  by_cases h1 : a = ""
  · rw [if_pos h1, if_pos h1] at h
    exact h
  · rw [if_neg h1, if_neg h1] at h
    by_cases h2 : a.data.getLast? = some '/'
    · rw [if_pos h2, if_pos h2] at h
      exact stringAppend_cancel_left h
    · rw [if_neg h2, if_neg h2] at h
      by_cases h3 : x.data.head? = some '/'
      · rw [if_pos h3, if_pos (hxy.mp h3)] at h
        exact h
      · rw [if_neg h3, if_neg (fun hy => h3 (hxy.mpr hy))] at h
        exact stringAppend_cancel_left h

/-- Candidate path number `i` tried by the collision loop of `write_to_file`:
`0` is the plain derived name, `i ≥ 1` appends `'({})'.format(i)`. -/
def writeCandidate (dest_path file_name : String) (i : Nat) : String :=
  if i = 0 then pyJoin dest_path (file_name ++ ".csv")
  else pyJoin dest_path (file_name ++ "(" ++ natToStr i ++ ")" ++ ".csv")

theorem csv_arg_data (fn : String) :
    (fn ++ ".csv").data = fn.data ++ ['.', 'c', 's', 'v'] := by
  rw [stringData_append]

theorem paren_arg_data (fn s : String) :
    (fn ++ "(" ++ s ++ ")" ++ ".csv").data
      = fn.data ++ '(' :: (s.data ++ ')' :: ['.', 'c', 's', 'v']) := by
  simp only [stringData_append, List.append_assoc]
  rfl

theorem head_append_agree (l t1 t2 : List Char) (h1 : t1.head? ≠ some '/')
    (h2 : t2.head? ≠ some '/') :
    ((l ++ t1).head? = some '/') ↔ ((l ++ t2).head? = some '/') := by
  cases l with
  | nil => simp only [List.nil_append]; exact iff_of_false h1 h2
  | cons c cs => simp

theorem paren_head_ne (fn s : String) :
    (fn ++ "(" ++ s ++ ")" ++ ".csv").data.head? = some '/' ↔
      (fn ++ ".csv").data.head? = some '/' := by
  rw [paren_arg_data, csv_arg_data]
  exact (head_append_agree fn.data _ _ (by simp) (by simp)).symm

theorem writeCandidate_inj (dest fn : String) (i j : Nat)
    (h : writeCandidate dest fn i = writeCandidate dest fn j) : i = j := by
  unfold writeCandidate at h
  split_ifs at h with hi hj hj
  · omega
  · exfalso
    have harg := pyJoin_right_inj dest (paren_head_ne fn (natToStr j)).symm h
    have hd := congrArg String.data harg
    rw [paren_arg_data, csv_arg_data] at hd
    have h2 := List.append_cancel_left hd
    injection h2 with hc _
    exact absurd hc (by decide)
  · exfalso
    have harg := pyJoin_right_inj dest (paren_head_ne fn (natToStr i)) h
    have hd := congrArg String.data harg
    rw [paren_arg_data, csv_arg_data] at hd
    have h2 := List.append_cancel_left hd
    injection h2 with hc _
    exact absurd hc (by decide)
  · have harg := pyJoin_right_inj dest
      ((paren_head_ne fn (natToStr i)).trans (paren_head_ne fn (natToStr j)).symm) h
    have hd := congrArg String.data harg
    rw [paren_arg_data, paren_arg_data] at hd
    have h2 := List.append_cancel_left hd
    injection h2 with _ h4
    exact natToStr_inj (stringExt (List.append_cancel_right h4))

/-- Model of the `while os.path.exists(file_path)` loop of `write_to_file`:
starting from candidate `i`, return the first candidate index whose path is
not among the existing ones.  The fuel argument only bounds the search; a
fuel of one more than the number of existing files always suffices because
the candidates are pairwise distinct. -/
def free_from (fs : List String) (cand : Nat → String) : Nat → Nat → Nat
  | 0, i => i
  | fuel + 1, i => if cand i ∈ fs then free_from fs cand fuel (i + 1) else i

theorem free_from_spec (fs : List String) (cand : Nat → String) :
    ∀ fuel i, (∃ j, i ≤ j ∧ j < i + fuel ∧ cand j ∉ fs) →
      cand (free_from fs cand fuel i) ∉ fs ∧ i ≤ free_from fs cand fuel i ∧
      ∀ k, i ≤ k → k < free_from fs cand fuel i → cand k ∈ fs := by
  intro fuel
  induction fuel with
  | zero =>
    intro i hex
    obtain ⟨j, hj1, hj2, _⟩ := hex
    omega
  | succ f ih =>
    intro i hex
    have hstep : free_from fs cand (f + 1) i =
        if cand i ∈ fs then free_from fs cand f (i + 1) else i := rfl
    by_cases hmem : cand i ∈ fs
    · rw [hstep, if_pos hmem]
      obtain ⟨j, hj1, hj2, hj3⟩ := hex
      have hj1' : i + 1 ≤ j := by
        rcases Nat.eq_or_lt_of_le hj1 with rfl | hlt
        · exact absurd hmem hj3
        · omega
      obtain ⟨r1, r2, r3⟩ := ih (i + 1) ⟨j, hj1', by omega, hj3⟩
      refine ⟨r1, by omega, ?_⟩
      intro k hk1 hk2
      rcases Nat.eq_or_lt_of_le hk1 with rfl | hlt
      · exact hmem
      · exact r3 k (by omega) hk2
    · rw [hstep, if_neg hmem]
      exact ⟨hmem, le_refl i, fun k hk1 hk2 => by omega⟩

theorem exists_free_index (fs : List String) (cand : Nat → String)
    (hinj : ∀ i j, cand i = cand j → i = j) :
    ∃ j, j < fs.length + 1 ∧ cand j ∉ fs := by
  by_contra hcon
  push_neg at hcon
  have hsub : ((List.range (fs.length + 1)).map cand) ⊆ fs := by
    intro x hx
    simp only [List.mem_map, List.mem_range] at hx
    obtain ⟨i, hi, rfl⟩ := hx
    exact hcon i hi
  have hcinj : Function.Injective cand := by
    intro a b hab
    exact hinj a b hab
  have hnodup : ((List.range (fs.length + 1)).map cand).Nodup :=
    (List.nodup_range _).map hcinj
  have hlen := (List.Nodup.subperm hnodup hsub).length_le
  simp at hlen

/-! ## earnings_calendar.write_to_file -/

/-- Python's `sorted(calendar_dict.keys())`. -/
def sortedDates (calendar : List (Nat × List Row3)) : List Nat :=
  List.insertionSort (· ≤ ·) (calendar.map (fun kv => kv.1))

/-- Derived file name of `write_to_file`: base name, underscore, first sorted
date as `%Y%m%d`, hyphen, last sorted date as `%Y%m%d`. -/
def derivedFileName (calendar : List (Nat × List Row3)) (file_base_name : String) : String :=
  match sortedDates calendar with
  | [] => ""
  | d0 :: rest =>
    file_base_name ++ "_" ++ strftimeYmd d0 ++ "-" ++ strftimeYmd (rest.getLastD d0)

/-- Model of `write_to_file` (earnings_calendar.py, lines 134-175).  The
filesystem is the list `fs` of existing paths.  `sorted_dates[0]` /
`sorted_dates[-1]` raise `IndexError` on an empty dict, modelled by the
`Except.error` branch, which is reached before any filesystem effect.  The
`while os.path.exists` loop is `free_from` (its fuel bound is justified by
`exists_free_index`).  The rows written by `csv.writer` are returned
together with the chosen path and the filesystem extended by the one file
created. -/
def write_to_file (fs : List String) (calendar : List (Nat × List Row3))
    (file_base_name dest_path : String) :
    Except String (String × List String × List (List String)) :=
  if sortedDates calendar = [] then
    Except.error "IndexError: list index out of range"
  else
    let file_name := derivedFileName calendar file_base_name
    let cand := writeCandidate dest_path file_name
    let file_path := cand (free_from fs cand (fs.length + 1) 0)
    let rows := (["Date", "Symbol", "BTO/ATC", "Time"] : List String) ::
      (sortedDates calendar).flatMap (fun date =>
        ((List.lookup date calendar).getD []).map
          (fun r => [strftimeAMdY date, r.1, r.2.1, r.2.2]))
    Except.ok (file_path, file_path :: fs, rows)

theorem sortedDates_ne_nil (calendar : List (Nat × List Row3))
    (hne : calendar ≠ []) : sortedDates calendar ≠ [] := by
  intro h0
  have hlen : (sortedDates calendar).length = calendar.length := by
    unfold sortedDates
    rw [List.length_insertionSort, List.length_map]
  rw [h0] at hlen
  rcases calendar with _ | ⟨kv, rest⟩
  · exact hne rfl
  · simp at hlen

theorem write_to_file_ok (fs : List String) (calendar : List (Nat × List Row3))
    (base dest : String) (hne : calendar ≠ []) :
    write_to_file fs calendar base dest = Except.ok
      (writeCandidate dest (derivedFileName calendar base)
         (free_from fs (writeCandidate dest (derivedFileName calendar base)) (fs.length + 1) 0),
       writeCandidate dest (derivedFileName calendar base)
         (free_from fs (writeCandidate dest (derivedFileName calendar base)) (fs.length + 1) 0)
         :: fs,
       (["Date", "Symbol", "BTO/ATC", "Time"] : List String) ::
         (sortedDates calendar).flatMap (fun date =>
           ((List.lookup date calendar).getD []).map
             (fun r => [strftimeAMdY date, r.1, r.2.1, r.2.2]))) := by
  unfold write_to_file
  rw [if_neg (sortedDates_ne_nil calendar hne)]

/-- C10: called with an empty dataset, `write_to_file` fails with the
out-of-range indexing error raised while deriving the file name, before any
filesystem state is touched; with at least one date key the derivation is
in bounds and the write succeeds, creating exactly one file. -/
theorem c10_write_empty_dataset :
    (∀ fs base dest, write_to_file fs [] base dest =
        Except.error "IndexError: list index out of range") ∧
    (∀ fs calendar base dest, calendar ≠ ([] : List (Nat × List Row3)) →
      ∃ path rows, write_to_file fs calendar base dest =
        Except.ok (path, path :: fs, rows)) := by
  constructor
  · intro fs base dest
    rfl
  · intro fs calendar base dest hne
    exact ⟨_, _, write_to_file_ok fs calendar base dest hne⟩

/-- Witness for `c10_write_empty_dataset`: a one-day dataset writes
successfully. -/
theorem c10_write_empty_dataset_witness :
    ∃ path rows, write_to_file [] [(0, ([] : List Row3))] "earnings_calendar" "dir" =
      Except.ok (path, path :: [], rows) :=
  c10_write_empty_dataset.2 [] [(0, [])] "earnings_calendar" "dir" (by simp)

/-- C4: `write_to_file` never overwrites and creates exactly one new file:
the chosen path is the first candidate not already present (every
earlier-numbered candidate already exists), and the filesystem grows by
exactly that path.  In particular, when the derived path and its `(1)`
variant are both initially free, two successive writes with identical
inputs create the derived path and then its `(1)`-suffixed variant — two
distinct files. -/
theorem c4_write_collision_safe (fs : List String) (calendar : List (Nat × List Row3))
    (base dest : String) (hne : calendar ≠ []) :
    (∃ i rows,
      write_to_file fs calendar base dest = Except.ok
        (writeCandidate dest (derivedFileName calendar base) i,
         writeCandidate dest (derivedFileName calendar base) i :: fs, rows) ∧
      writeCandidate dest (derivedFileName calendar base) i ∉ fs ∧
      (∀ k < i, writeCandidate dest (derivedFileName calendar base) k ∈ fs)) ∧
    (writeCandidate dest (derivedFileName calendar base) 0 ∉ fs →
     writeCandidate dest (derivedFileName calendar base) 1 ∉ fs →
     ∃ rows1 rows2,
       write_to_file fs calendar base dest = Except.ok
         (writeCandidate dest (derivedFileName calendar base) 0,
          writeCandidate dest (derivedFileName calendar base) 0 :: fs, rows1) ∧
       write_to_file (writeCandidate dest (derivedFileName calendar base) 0 :: fs)
           calendar base dest = Except.ok
         (writeCandidate dest (derivedFileName calendar base) 1,
          writeCandidate dest (derivedFileName calendar base) 1 ::
            writeCandidate dest (derivedFileName calendar base) 0 :: fs, rows2) ∧
       writeCandidate dest (derivedFileName calendar base) 0 ≠
         writeCandidate dest (derivedFileName calendar base) 1) := by
  constructor
  · obtain ⟨j, hj1, hj2⟩ :=
      exists_free_index fs (writeCandidate dest (derivedFileName calendar base))
        (writeCandidate_inj dest (derivedFileName calendar base))
    obtain ⟨r1, r2, r3⟩ :=
      free_from_spec fs (writeCandidate dest (derivedFileName calendar base))
        (fs.length + 1) 0 ⟨j, by omega, by omega, hj2⟩
    exact ⟨_, _, write_to_file_ok fs calendar base dest hne, r1,
      fun k hk => r3 k (by omega) hk⟩
  · intro h0 h1
    have hne01 : writeCandidate dest (derivedFileName calendar base) 0 ≠
        writeCandidate dest (derivedFileName calendar base) 1 := by
      intro he
      have := writeCandidate_inj dest (derivedFileName calendar base) 0 1 he
      omega
    have e1 : free_from fs (writeCandidate dest (derivedFileName calendar base))
        (fs.length + 1) 0 = 0 := by
      have hstep : free_from fs (writeCandidate dest (derivedFileName calendar base))
          (fs.length + 1) 0 =
          if writeCandidate dest (derivedFileName calendar base) 0 ∈ fs then
            free_from fs (writeCandidate dest (derivedFileName calendar base)) fs.length 1
          else 0 := rfl
      rw [hstep, if_neg h0]
    have e2 : free_from (writeCandidate dest (derivedFileName calendar base) 0 :: fs)
        (writeCandidate dest (derivedFileName calendar base))
        ((writeCandidate dest (derivedFileName calendar base) 0 :: fs).length + 1) 0 = 1 := by
      have hstep1 : free_from (writeCandidate dest (derivedFileName calendar base) 0 :: fs)
          (writeCandidate dest (derivedFileName calendar base)) (fs.length + 1 + 1) 0 =
          if writeCandidate dest (derivedFileName calendar base) 0 ∈
              (writeCandidate dest (derivedFileName calendar base) 0 :: fs) then
            free_from (writeCandidate dest (derivedFileName calendar base) 0 :: fs)
              (writeCandidate dest (derivedFileName calendar base)) (fs.length + 1) 1
          else 0 := rfl
      have hstep2 : free_from (writeCandidate dest (derivedFileName calendar base) 0 :: fs)
          (writeCandidate dest (derivedFileName calendar base)) (fs.length + 1) 1 =
          if writeCandidate dest (derivedFileName calendar base) 1 ∈
              (writeCandidate dest (derivedFileName calendar base) 0 :: fs) then
            free_from (writeCandidate dest (derivedFileName calendar base) 0 :: fs)
              (writeCandidate dest (derivedFileName calendar base)) fs.length 2
          else 1 := rfl
      have hnotmem : writeCandidate dest (derivedFileName calendar base) 1 ∉
          (writeCandidate dest (derivedFileName calendar base) 0 :: fs) := by
        simp only [List.mem_cons]
        push_neg
        exact ⟨fun he => hne01 he.symm, h1⟩
      simp only [List.length_cons]
      rw [hstep1, if_pos (by simp), hstep2, if_neg hnotmem]
    have w1 := write_to_file_ok fs calendar base dest hne
    rw [e1] at w1
    have w2 := write_to_file_ok
      (writeCandidate dest (derivedFileName calendar base) 0 :: fs) calendar base dest hne
    rw [e2] at w2
    exact ⟨_, _, w1, w2, hne01⟩

/-- Witness for `c4_write_collision_safe` on an empty directory and a one-day
dataset. -/
theorem c4_write_collision_safe_witness :
    ∃ rows1 rows2,
      write_to_file [] [(0, ([] : List Row3))] "ec" "dir" = Except.ok
        (writeCandidate "dir" (derivedFileName [(0, [])] "ec") 0,
         writeCandidate "dir" (derivedFileName [(0, [])] "ec") 0 :: [], rows1) ∧
      write_to_file (writeCandidate "dir" (derivedFileName [(0, [])] "ec") 0 :: [])
          [(0, [])] "ec" "dir" = Except.ok
        (writeCandidate "dir" (derivedFileName [(0, [])] "ec") 1,
         writeCandidate "dir" (derivedFileName [(0, [])] "ec") 1 ::
           writeCandidate "dir" (derivedFileName [(0, [])] "ec") 0 :: [], rows2) ∧
      writeCandidate "dir" (derivedFileName [(0, [])] "ec") 0 ≠
        writeCandidate "dir" (derivedFileName [(0, [])] "ec") 1 :=
  (c4_write_collision_safe [] [(0, [])] "ec" "dir" (by simp)).2 (by simp) (by simp)

theorem lookup_mem {β : Type} : ∀ (l : List (Nat × β)) (d : Nat) (v : β),
    List.lookup d l = some v → (d, v) ∈ l := by
  intro l
  induction l with
  | nil =>
    intro d v h
    simp [List.lookup] at h
  | cons kv tl ih =>
    intro d v h
    obtain ⟨k, b⟩ := kv
    by_cases hk : d = k
    · subst hk
      have he : List.lookup d ((d, b) :: tl) = some b := by simp [List.lookup]
      rw [he] at h
      cases h
      exact List.mem_cons_self _ _
    · have he : List.lookup d ((k, b) :: tl) = List.lookup d tl := by
        simp only [List.lookup]
        rw [show (d == k) = false from beq_eq_false_iff_ne.mpr hk]
      rw [he] at h
      exact List.mem_cons_of_mem _ (ih d v h)

theorem lookup_of_mem_keys {β : Type} : ∀ (l : List (Nat × β)) (d : Nat),
    d ∈ l.map (fun kv => kv.1) → ∃ v, List.lookup d l = some v := by
  intro l
  induction l with
  | nil => simp
  | cons kv tl ih =>
    intro d hd
    obtain ⟨k, b⟩ := kv
    by_cases hk : d = k
    · subst hk
      exact ⟨b, by simp [List.lookup]⟩
    · have hd' : d ∈ tl.map (fun kv => kv.1) := by
        simpa [hk] using hd
      obtain ⟨v, hv⟩ := ih d hd'
      refine ⟨v, ?_⟩
      simp only [List.lookup, hv]
      rw [show (d == k) = false from beq_eq_false_iff_ne.mpr hk]

/-- C5: the produced file is a single header row with the fixed columns
followed by one row per (date, announcement) pair — dates ascending (the
sorted keys are sorted and a permutation of the dict's keys), ties in the
original extraction order within each day — and the Date field is the
`Ddd, MM/DD/YYYY` rendering of the key (weekday abbreviation, two-digit
month and day, four-digit year for the years `datetime` supports), not the
internal key format. -/
theorem c5_file_layout (fs : List String) (calendar : List (Nat × List Row3))
    (base dest : String) (hne : calendar ≠ []) :
    (∃ path, write_to_file fs calendar base dest = Except.ok
      (path, path :: fs,
       (["Date", "Symbol", "BTO/ATC", "Time"] : List String) ::
         (sortedDates calendar).flatMap (fun date =>
           ((List.lookup date calendar).getD []).map
             (fun r => [strftimeAMdY date, r.1, r.2.1, r.2.2])))) ∧
    List.Sorted (· ≤ ·) (sortedDates calendar) ∧
    (sortedDates calendar).Perm (calendar.map (fun kv => kv.1)) ∧
    (∀ d : Nat, (civilOfDays d).1 < 10000 →
      strftimeAMdY d = weekdayAbbrev d ++ ", " ++ pad2 (civilOfDays d).2.1 ++ "/" ++
        pad2 (civilOfDays d).2.2 ++ "/" ++ pad4 (civilOfDays d).1 ∧
      weekdayAbbrev d ∈ (["Mon", "Tue", "Wed", "Thu", "Fri", "Sat", "Sun"] : List String) ∧
      (pad2 (civilOfDays d).2.1).length = 2 ∧
      (pad2 (civilOfDays d).2.2).length = 2 ∧
      (pad4 (civilOfDays d).1).length = 4) := by
  refine ⟨⟨_, write_to_file_ok fs calendar base dest hne⟩,
    List.sorted_insertionSort _ _, List.perm_insertionSort _ _, ?_⟩
  intro d hy
  have hbounds := civil_month_day_bounds d (civilOfDays d).1 (civilOfDays d).2.1
    (civilOfDays d).2.2 rfl
  refine ⟨rfl, ?_, pad2_length (by omega), pad2_length (by omega), pad4_length hy⟩
  have h7 : weekdayIdx d = 0 ∨ weekdayIdx d = 1 ∨ weekdayIdx d = 2 ∨ weekdayIdx d = 3 ∨
      weekdayIdx d = 4 ∨ weekdayIdx d = 5 ∨ weekdayIdx d = 6 := by
    unfold weekdayIdx
    omega
  unfold weekdayAbbrev
  rcases h7 with h | h | h | h | h | h | h <;> rw [h] <;> decide

/-- Witness for `c5_file_layout` on a one-day, one-announcement dataset. -/
theorem c5_file_layout_witness :
    (∃ path, write_to_file [] [(0, [("AAPL", "BTO", "7:30 AM ET")])] "ec" "dir" = Except.ok
      (path, path :: [],
       (["Date", "Symbol", "BTO/ATC", "Time"] : List String) ::
         (sortedDates [(0, [("AAPL", "BTO", "7:30 AM ET")])]).flatMap (fun date =>
           ((List.lookup date [(0, [("AAPL", "BTO", "7:30 AM ET")])]).getD []).map
             (fun r => [strftimeAMdY date, r.1, r.2.1, r.2.2])))) ∧
    List.Sorted (· ≤ ·) (sortedDates [(0, [("AAPL", "BTO", "7:30 AM ET")])]) ∧
    (sortedDates [(0, [("AAPL", "BTO", "7:30 AM ET")])]).Perm
      ([(0, [("AAPL", "BTO", "7:30 AM ET")])].map (fun kv => kv.1)) ∧
    (∀ d : Nat, (civilOfDays d).1 < 10000 →
      strftimeAMdY d = weekdayAbbrev d ++ ", " ++ pad2 (civilOfDays d).2.1 ++ "/" ++
        pad2 (civilOfDays d).2.2 ++ "/" ++ pad4 (civilOfDays d).1 ∧
      weekdayAbbrev d ∈ (["Mon", "Tue", "Wed", "Thu", "Fri", "Sat", "Sun"] : List String) ∧
      (pad2 (civilOfDays d).2.1).length = 2 ∧
      (pad2 (civilOfDays d).2.2).length = 2 ∧
      (pad4 (civilOfDays d).1).length = 4) :=
  c5_file_layout [] [(0, [("AAPL", "BTO", "7:30 AM ET")])] "ec" "dir" (by simp)

/-! ## Round-trip: re-reading and regrouping the written file (claim C8) -/

/-- Regroup the body rows of a calendar file by their Date field: consecutive
rows sharing the same first field form one group, whose remaining fields
are kept in order. -/
def regroupByDate : List (List String) → List (String × List (List String))
  | [] => []
  | [] :: rs => regroupByDate rs
  | (d :: fields) :: rs =>
    match regroupByDate rs with
    | (d', block) :: gs =>
      if d = d' then (d, fields :: block) :: gs
      else (d, [fields]) :: (d', block) :: gs
    | [] => [(d, [fields])]

theorem regroupByDate_cons (d : String) (fields : List String) (rs : List (List String)) :
    regroupByDate ((d :: fields) :: rs) =
      (match regroupByDate rs with
       | (d', block) :: gs =>
         if d = d' then (d, fields :: block) :: gs
         else (d, [fields]) :: (d', block) :: gs
       | [] => [(d, [fields])]) := rfl

theorem regroup_block (g : String) (rows rest : List (List String)) (hne : rows ≠ [])
    (hhd : ∀ s block tl, regroupByDate rest = (s, block) :: tl → s ≠ g) :
    regroupByDate ((rows.map (fun r => g :: r)) ++ rest) =
      (g, rows) :: regroupByDate rest := by
  induction rows with
  | nil => exact absurd rfl hne
  | cons r rs ih =>
    cases rs with
    | nil =>
      rw [List.map_cons, List.map_nil, List.cons_append, List.nil_append, regroupByDate_cons]
      cases hrg : regroupByDate rest with
      | nil => rfl
      | cons p gs =>
        obtain ⟨s, block⟩ := p
        show (if g = s then (g, r :: block) :: gs
              else (g, [r]) :: (s, block) :: gs) = (g, [r]) :: (s, block) :: gs
        rw [if_neg (fun he => hhd s block gs hrg he.symm)]
    | cons r2 rs2 =>
      have hblocktail := ih (by simp)
      rw [List.map_cons, List.cons_append, regroupByDate_cons, hblocktail]
      show (if g = g then (g, r :: r2 :: rs2) :: regroupByDate rest
            else (g, [r]) :: (g, r2 :: rs2) :: regroupByDate rest) =
          (g, r :: r2 :: rs2) :: regroupByDate rest
      rw [if_pos rfl]

theorem regroup_flatMap (dates : List Nat) (calendar : List (Nat × List Row3))
    (hnonempty : ∀ d ∈ dates, ((List.lookup d calendar).getD [] : List Row3) ≠ [])
    (hpair : dates.Pairwise (fun a b => strftimeAMdY a ≠ strftimeAMdY b)) :
    regroupByDate (dates.flatMap (fun date =>
        ((List.lookup date calendar).getD []).map
          (fun r => [strftimeAMdY date, r.1, r.2.1, r.2.2]))) =
      dates.map (fun d => (strftimeAMdY d,
        ((List.lookup d calendar).getD []).map (fun r => [r.1, r.2.1, r.2.2]))) := by
  induction dates with
  | nil => rfl
  | cons d ds ih =>
    rw [List.flatMap_cons, List.map_cons]
    have hblock : ((List.lookup d calendar).getD []).map
        (fun r => ([strftimeAMdY d, r.1, r.2.1, r.2.2] : List String)) =
        (((List.lookup d calendar).getD []).map
          (fun r => ([r.1, r.2.1, r.2.2] : List String))).map
          (fun r => strftimeAMdY d :: r) := by
      rw [List.map_map]
      rfl
    have hne_block : (((List.lookup d calendar).getD []).map
        (fun r => ([r.1, r.2.1, r.2.2] : List String))) ≠ [] := by
      intro hmap
      apply hnonempty d (by simp)
      cases hlookup : ((List.lookup d calendar).getD [] : List Row3) with
      | nil => rfl
      | cons a l =>
        rw [hlookup] at hmap
        simp at hmap
    have hhd : ∀ s block tl, regroupByDate (ds.flatMap (fun date =>
        ((List.lookup date calendar).getD []).map
          (fun r => [strftimeAMdY date, r.1, r.2.1, r.2.2]))) = (s, block) :: tl →
        s ≠ strftimeAMdY d := by
      intro s block tl hrg
      rw [ih (fun x hx => hnonempty x (by simp [hx])) hpair.of_cons] at hrg
      cases ds with
      | nil => simp at hrg
      | cons d2 ds2 =>
        rw [List.map_cons] at hrg
        injection hrg with h1 _
        have hs : strftimeAMdY d2 = s := congrArg Prod.fst h1
        have hd2 : strftimeAMdY d ≠ strftimeAMdY d2 :=
          (List.pairwise_cons.mp hpair).1 d2 (by simp)
        rw [← hs]
        exact fun he => hd2 he.symm
    rw [hblock, regroup_block (strftimeAMdY d) _ _ hne_block hhd,
      ih (fun x hx => hnonempty x (by simp [hx])) hpair.of_cons]

/-- C8: the body of the written file is the days' announcement tuples in
sorted-date order with the Date field formatted, and regrouping those rows
by the Date field reconstructs exactly the sorted days, each with its
(symbol, session, raw_time) tuples — the original dataset modulo the date
formatting.  The dataset is assumed well-formed as a dict produces it:
nonempty, distinct keys, no empty day, and distinct keys formatting to
distinct date strings. -/
theorem c8_write_read_roundtrip (fs : List String) (calendar : List (Nat × List Row3))
    (base dest : String) (hne : calendar ≠ [])
    (hnodup : (calendar.map (fun kv => kv.1)).Nodup)
    (hdays : ∀ kv ∈ calendar, kv.2 ≠ ([] : List Row3))
    (hfmt : ∀ a ∈ calendar.map (fun kv => kv.1), ∀ b ∈ calendar.map (fun kv => kv.1),
      a ≠ b → strftimeAMdY a ≠ strftimeAMdY b) :
    ∃ path, write_to_file fs calendar base dest = Except.ok
      (path, path :: fs,
       (["Date", "Symbol", "BTO/ATC", "Time"] : List String) ::
         (sortedDates calendar).flatMap (fun date =>
           ((List.lookup date calendar).getD []).map
             (fun r => [strftimeAMdY date, r.1, r.2.1, r.2.2]))) ∧
      regroupByDate ((sortedDates calendar).flatMap (fun date =>
          ((List.lookup date calendar).getD []).map
            (fun r => [strftimeAMdY date, r.1, r.2.1, r.2.2]))) =
        (sortedDates calendar).map (fun d => (strftimeAMdY d,
          ((List.lookup d calendar).getD []).map (fun r => [r.1, r.2.1, r.2.2]))) := by
  refine ⟨_, write_to_file_ok fs calendar base dest hne, ?_⟩
  apply regroup_flatMap
  · intro d hd
    have hdk : d ∈ calendar.map (fun kv => kv.1) :=
      ((List.perm_insertionSort _ _).mem_iff).mp hd
    obtain ⟨v, hv⟩ := lookup_of_mem_keys calendar d hdk
    rw [hv]
    simpa using hdays (d, v) (lookup_mem calendar d v hv)
  · have hnodup' : (sortedDates calendar).Nodup :=
      ((List.perm_insertionSort _ _).nodup_iff).mpr hnodup
    refine List.Pairwise.imp_of_mem ?_ hnodup'
    intro a b ha hb hab
    exact hfmt a (((List.perm_insertionSort _ _).mem_iff).mp ha)
      b (((List.perm_insertionSort _ _).mem_iff).mp hb) hab

/-- Witness for `c8_write_read_roundtrip` on a two-day dataset. -/
theorem c8_write_read_roundtrip_witness :
    ∃ path, write_to_file []
        [(0, [("AAPL", "BTO", "7:30 AM ET")]), (1, [("MSFT", "ATC", "4:05 PM ET")])]
        "ec" "dir" = Except.ok
      (path, path :: [],
       (["Date", "Symbol", "BTO/ATC", "Time"] : List String) ::
         (sortedDates [(0, [("AAPL", "BTO", "7:30 AM ET")]),
             (1, [("MSFT", "ATC", "4:05 PM ET")])]).flatMap (fun date =>
           ((List.lookup date [(0, [("AAPL", "BTO", "7:30 AM ET")]),
               (1, [("MSFT", "ATC", "4:05 PM ET")])]).getD []).map
             (fun r => [strftimeAMdY date, r.1, r.2.1, r.2.2]))) ∧
      regroupByDate ((sortedDates [(0, [("AAPL", "BTO", "7:30 AM ET")]),
            (1, [("MSFT", "ATC", "4:05 PM ET")])]).flatMap (fun date =>
          ((List.lookup date [(0, [("AAPL", "BTO", "7:30 AM ET")]),
              (1, [("MSFT", "ATC", "4:05 PM ET")])]).getD []).map
            (fun r => [strftimeAMdY date, r.1, r.2.1, r.2.2]))) =
        (sortedDates [(0, [("AAPL", "BTO", "7:30 AM ET")]),
            (1, [("MSFT", "ATC", "4:05 PM ET")])]).map (fun d => (strftimeAMdY d,
          ((List.lookup d [(0, [("AAPL", "BTO", "7:30 AM ET")]),
              (1, [("MSFT", "ATC", "4:05 PM ET")])]).getD []).map
            (fun r => [r.1, r.2.1, r.2.2]))) :=
  c8_write_read_roundtrip []
    [(0, [("AAPL", "BTO", "7:30 AM ET")]), (1, [("MSFT", "ATC", "4:05 PM ET")])]
    "ec" "dir" (by simp) (by decide) (by decide) (by decide)

/-! ## data_fetcher.CompanyClient.fetch_data (claim C6) -/

/-- Per-symbol payload of the YCharts `get_points` response: the
`meta.status` flag and the `results` mapping each data point to its
`data[1]` value. -/
structure SymbolResult (α : Type) where
  status_ok : Bool
  results : List (String × α)

/-- Model of `CompanyClient.fetch_data` (data_fetcher.py, lines 20-49).  The
body reads the free name `field_list`, not its `fields` parameter;
`module_field_list` models Python's module-scope resolution of that name —
`none` when `data_fetcher` is imported (the name is only bound inside its
`if __name__ == '__main__'` block), in which case the call raises
`NameError` before anything else happens.  `get_points` abstracts the
inherited pycharts client.  A symbol whose `meta.status` is not `'ok'` maps
every name in `field_list` to the missing marker. -/
def fetch_data {α : Type} (module_field_list : Option (List String))
    (symbol_list : List String)
    (get_points : List String → List String → List (String × SymbolResult α))
    (fields : List String) :
    Except String (List (String × List (String × Option α))) :=
  match module_field_list with
  | none => Except.error "NameError: global name 'field_list' is not defined"
  | some field_list =>
    let response := get_points symbol_list field_list
    Except.ok (response.map (fun p =>
      (p.1, if p.2.status_ok then p.2.results.map (fun q => (q.1, some q.2))
            else field_list.map (fun f => (f, none)))))

/-- C6 (code bug): imported as a module — the only way `append_data_to_file`
ever calls it — `fetch_data` raises `NameError` on the unbound free name
`field_list` whatever its arguments are, and its result never depends on
the `fields` parameter the caller passes, contradicting its own docstring
("Fetch data for given fields") and the claim. -/
theorem c6_fetch_data_field_list_bug {α : Type} :
    (∀ (symbol_list fields : List String)
       (get_points : List String → List String → List (String × SymbolResult α)),
      fetch_data none symbol_list get_points fields =
        Except.error "NameError: global name 'field_list' is not defined") ∧
    (∀ (module_field_list : Option (List String)) (symbol_list : List String)
       (get_points : List String → List String → List (String × SymbolResult α))
       (fields fields' : List String),
      fetch_data module_field_list symbol_list get_points fields =
        fetch_data module_field_list symbol_list get_points fields') := by
  constructor
  · intro symbol_list fields get_points
    rfl
  · intro mfl symbol_list get_points fields fields'
    cases mfl <;> rfl

/-! ## earnings_calendar.append_data_to_file (claim C7) -/

/-- Left-join of one calendar row with the fetched per-symbol data, as
`DataFrame.merge(..., how='left', left_on='Symbol', right_index=True)`
produces for that row: the original fields followed by one value per
requested field, a missing entry (failed symbol, absent field) rendering as
the empty CSV cell that NaN becomes.  The Symbol column is field 1. -/
def mergeRow (data_dict : List (String × List (String × Option String)))
    (fields : List String) (row : List String) : List String :=
  row ++ fields.map (fun f =>
    match List.lookup (row.getD 1 "") data_dict with
    | some fv =>
      match List.lookup f fv with
      | some (some v) => v
      | some none => ""
      | none => ""
    | none => "")

/-- Model of `append_data_to_file` (earnings_calendar.py, lines 177-190) as a
transition on the state of the one file it touches.  `file` is the file's
parsed row content, `none` when it cannot be read (`pd.read_csv` raises,
leaving the file untouched).  `data_dict` stands for the collaborator data
the fetch step would produce (in the shipped code that step itself raises;
see `fetch_data`).  `final_df.to_csv(file_name)` rewrites the file in
place: `open(file_name, 'w')` truncates it and rows are then written in
order, so an I/O error after `k` rows — injected through `interrupt` —
leaves the first `k` rows of the NEW content.  Returns the file state
after the call and whether the call succeeded. -/
def append_data_to_file (file : Option (List (List String)))
    (data_dict : List (String × List (String × Option String)))
    (fields : List String) (interrupt : Option Nat) :
    Option (List (List String)) × Bool :=
  match file with
  | none => (none, false)
  | some rows =>
    let final :=
      match rows with
      | [] => []
      | header :: body => (header ++ fields) :: body.map (mergeRow data_dict fields)
    match interrupt with
    | none => (some final, true)
    | some k => (some (final.take k), false)

/-- C7 counterexample: a rewrite interrupted at the truncation point (zero
rows flushed) fails and leaves an empty file, not the original one-row
calendar — the in-place `to_csv` rewrite has no write-to-temp-then-replace
protection. -/
theorem c7_append_counterexample :
    append_data_to_file
      (some [["Date", "Symbol", "BTO/ATC", "Time"],
             ["Thu, 01/01/1970", "AAPL", "BTO", "7:30 AM ET"]])
      [] ["price"] (some 0) =
      (some [], false) ∧
    (some ([] : List (List String))) ≠
      (some [["Date", "Symbol", "BTO/ATC", "Time"],
             ["Thu, 01/01/1970", "AAPL", "BTO", "7:30 AM ET"]]) := by decide

/-- C7 amended: only the read half of the claim holds — when the file cannot
be read the operation fails with the file state unchanged; the rewrite is
performed in place, so an uninterrupted call replaces the whole file while
an interrupted one leaves a prefix of the NEW content (possibly empty),
not the original file. -/
theorem c7_append_amended :
    (∀ data_dict fields interrupt,
      append_data_to_file none data_dict fields interrupt = (none, false)) ∧
    (∀ (rows : List (List String)) data_dict fields header body,
      rows = header :: body →
      append_data_to_file (some rows) data_dict fields none =
        (some ((header ++ fields) :: body.map (mergeRow data_dict fields)), true)) ∧
    (∀ (rows : List (List String)) data_dict fields header body (k : Nat),
      rows = header :: body →
      append_data_to_file (some rows) data_dict fields (some k) =
        (some (((header ++ fields) :: body.map (mergeRow data_dict fields)).take k),
         false)) := by
  refine ⟨fun _ _ _ => rfl, ?_, ?_⟩
  · intro rows data_dict fields header body hr
    subst hr
    rfl
  · intro rows data_dict fields header body k hr
    subst hr
    rfl

/-- Witness for `c7_append_amended` on a concrete one-row file. -/
theorem c7_append_amended_witness :
    append_data_to_file
      (some [["Date", "Symbol", "BTO/ATC", "Time"],
             ["Thu, 01/01/1970", "AAPL", "BTO", "7:30 AM ET"]]) [] ["price"] none =
      (some [["Date", "Symbol", "BTO/ATC", "Time"] ++ ["price"],
             mergeRow [] ["price"] ["Thu, 01/01/1970", "AAPL", "BTO", "7:30 AM ET"]],
       true) :=
  c7_append_amended.2.1 _ [] ["price"] ["Date", "Symbol", "BTO/ATC", "Time"]
    [["Thu, 01/01/1970", "AAPL", "BTO", "7:30 AM ET"]] rfl
